import Mathlib

/-!
Verification of the pypyt rendering core (src/pypyt/__init__.py).

The development shallowly embeds the data model the renderers mutate
(text frames made of paragraphs made of runs, tables of rows of cells,
charts) and the renderer functions themselves.  Python's in-place
mutation with exception propagation is modelled by functions returning
the mutated state paired with an `Option String` error: `none` means
normal return, `some e` names the exception class that would propagate,
and the state component is the state at the moment the exception is
raised (mutations before the raise are kept, later ones never happen).
-/

namespace Pypyt

/-! ## Text model

A run is a piece of paragraph text carrying run-level formatting,
abstracted here as a numeric `props` tag (the renderers never inspect
it, they only preserve or drop it).  A paragraph's text is the
concatenation of its runs' texts, as in the underlying library. -/

structure Run where
  text : String
  props : Nat
deriving DecidableEq, Repr

structure Paragraph where
  runs : List Run
deriving DecidableEq, Repr

def Paragraph.text (p : Paragraph) : String :=
  String.join (p.runs.map Run.text)

structure TextFrame where
  paragraphs : List Paragraph
deriving DecidableEq, Repr

/-! ## Marker scanning: `re.findall(r"\{(\w+)\}", text)`

`isWordChar` models `\w` (ASCII).  The scanner walks the text left to
right; at a brace it takes the maximal run of word characters and
accepts the marker only when a closing brace follows at once, exactly
as the regex does (on failure the regex advances one character). -/

/-- `\w` on ASCII text.  Python 3's `re` is Unicode, so on non-ASCII
text the real pattern can match more; the theorems about marker
presence therefore restrict the paragraph texts to ASCII, where this
embedding provably coincides with the source's regex. -/
def isWordChar (c : Char) : Bool :=
  c.isAlphanum || c = '_'

/-- One regex-scanning step per unit of fuel; the caller supplies the input
length as fuel, which always suffices because every step consumes at least
one character.  (Structural recursion on the fuel keeps the scanner fully
computable by the kernel.) -/
def findKeywordsGo : Nat → List Char → List String
  | 0, _ => []
  | _ + 1, [] => []
  | fuel + 1, c :: rest =>
    if c = '{' then
      match rest.dropWhile isWordChar with
      | '}' :: tail =>
        if (rest.takeWhile isWordChar).isEmpty then findKeywordsGo fuel rest
        else String.mk (rest.takeWhile isWordChar) :: findKeywordsGo fuel tail
      | _ => findKeywordsGo fuel rest
    else findKeywordsGo fuel rest

def findKeywords (s : String) : List String :=
  findKeywordsGo s.toList.length s.toList

/-! ## Scalar text render: the base register of `render_paragraph`

Takes the first paragraph, removes every run after the first, then
assigns the value to the first run's text; if there is no run
(`IndexError` on `runs[0]`) the assignment goes through the paragraph
text setter, which synthesizes a single fresh run.  An empty paragraph
list would raise `IndexError` on `paragraphs[0]` (the library always
supplies at least one paragraph). -/

def renderParagraphScalar (s : String) (tf : TextFrame) : TextFrame × Option String :=
  match tf.paragraphs with
  | [] => (tf, some "IndexError")
  | p :: rest =>
    match p.runs with
    | [] => (⟨⟨[⟨s, 0⟩]⟩ :: rest⟩, none)
    | r :: _ => (⟨⟨[⟨s, r.props⟩]⟩ :: rest⟩, none)

/-! ## Caller-supplied values

`Frame` models a pandas DataFrame at the granularity the renderers use:
row-index labels, ordered columns of numeric cells, and the two
instance attributes the registers probe with `hasattr` — `header`
(table register) and `title` (chart register).  Attribute access on a
DataFrame first finds a user-set instance attribute; when none is set,
pandas' `__getattr__` fallback resolves a *column* of that name to its
Series, so `hasattr(df, 'title')` is also true when a column is named
`title`.  `attrHeader`/`attrTitle` are the user-set attributes (absent
by default); the column fallback is derived from `data` by the probe
functions below.  `Value` is the union of Python value shapes the three
`singledispatch` renderers distinguish: strings and numbers (scalars),
lists, dicts (iteration order preserved, so an association list), and
DataFrames. -/

structure Frame where
  index : List String
  data : List (String × List Int)
  attrHeader : Option Bool
  attrTitle : Option String
deriving DecidableEq, Repr

inductive Value : Type where
  | str : String → Value
  | int : Int → Value
  | vlist : List Value → Value
  | vdict : List (String × Value) → Value
  | frame : Frame → Value

/-- Python `str()` for the scalar values the render paths stringify; the
claims only ever stringify strings and integers, the remaining shapes get
an abbreviated form. -/
def pyStr : Value → String
  | .str s => s
  | .int n => toString n
  | .vlist _ => "<list>"
  | .vdict _ => "<dict>"
  | .frame _ => "<DataFrame>"

/-- Python dict lookup `d[k]` (a dict holds each key once, so the first
match is the binding). -/
def pyDictGet {α : Type} (m : List (String × α)) (k : String) : Option α :=
  match m with
  | [] => none
  | (k2, v) :: rest => if k2 = k then some v else pyDictGet rest k

/-- Python dict insertion `d[k] = v`: overwrites in place when the key is
present, appends otherwise. -/
def pyDictInsert {α : Type} (m : List (String × α)) (k : String) (v : α) :
    List (String × α) :=
  if m.any (fun p => p.1 == k) then
    m.map (fun p => if p.1 = k then (k, v) else p)
  else m ++ [(k, v)]

/-- The dict comprehension preceding the `format` call in the dict register
of `render_paragraph`: looks every keyword up in order and raises `KeyError`
(returns `none`) at the first missing one, before anything is mutated. -/
def lookupAll (m : List (String × Value)) : List String → Option (List (String × Value))
  | [] => some []
  | k :: ks =>
    match pyDictGet m k with
    | none => none
    | some v =>
      match lookupAll m ks with
      | none => none
      | some rest => some ((k, v) :: rest)

/-- `str.format(**sub)`.  The template grammar is modelled as Python
parses it: `\x7b\x7b` and `\x7d\x7d` are escapes producing one literal
brace; a lone `\x7d` raises `ValueError`; a `\x7b` opens a replacement
field running to the next `\x7d` (missing → `ValueError`); an empty
field or an all-digit field is positional auto-numbering/indexing,
which raises `IndexError` when only keyword arguments are supplied (as
here); a plain `\w+` field is looked up among the keyword arguments
(`KeyError` when absent) and replaced by the stringified value.  Fields
with conversions, format specs or attribute/index access (`!`, `:`,
`.`, `[`) are not modelled and conservatively raise; they never arise
in the inputs the claims quantify over. -/
def pyFormatGo (sub : List (String × Value)) : Nat → List Char → Except String (List Char)
  | 0, l => Except.ok l
  | _ + 1, [] => Except.ok []
  | fuel + 1, c :: rest =>
    if c = '{' then
      match rest with
      | '{' :: tail =>
        match pyFormatGo sub fuel tail with
        | Except.ok out => Except.ok ('{' :: out)
        | Except.error e => Except.error e
      | _ =>
        match rest.dropWhile (fun c2 => !(c2 == '}')) with
        | '}' :: tail =>
          if (rest.takeWhile (fun c2 => !(c2 == '}'))).isEmpty then Except.error "IndexError"
          else if (rest.takeWhile (fun c2 => !(c2 == '}'))).all isWordChar then
            if (rest.takeWhile (fun c2 => !(c2 == '}'))).all Char.isDigit then
              Except.error "IndexError"
            else
              match pyDictGet sub (String.mk (rest.takeWhile (fun c2 => !(c2 == '}')))) with
              | some v =>
                match pyFormatGo sub fuel tail with
                | Except.ok out => Except.ok ((pyStr v).toList ++ out)
                | Except.error e => Except.error e
              | none => Except.error "KeyError"
          else Except.error "ValueError"
        | _ => Except.error "ValueError"
    else if c = '}' then
      match rest with
      | '}' :: tail =>
        match pyFormatGo sub fuel tail with
        | Except.ok out => Except.ok ('}' :: out)
        | Except.error e => Except.error e
      | _ => Except.error "ValueError"
    else
      match pyFormatGo sub fuel rest with
      | Except.ok out => Except.ok (c :: out)
      | Except.error e => Except.error e

def pyFormat (s : String) (sub : List (String × Value)) : Except String String :=
  (pyFormatGo sub s.toList.length s.toList).map String.mk

/-! ## Mapping-valued text render: the dict register of `render_paragraph`

Per paragraph: scan the current text for markers; when none, leave the
paragraph alone; otherwise look every marker up (raising `KeyError`
before any mutation), interpolate, drop the runs after the first and
overwrite the first run's text.  An exception stops the paragraph loop,
leaving the failing paragraph and all later ones untouched. -/

/-- The write-back half of the dict register: given the outcome of the
`format` call, either propagate its exception with the paragraph
untouched, or drop the runs after the first and overwrite the first
run's text (`IndexError` on a paragraph with no run at all). -/
def applyFormatted (p : Paragraph) : Except String String → Paragraph × Option String
  | Except.error e => (p, some e)
  | Except.ok newText =>
    match p.runs with
    | [] => (p, some "IndexError")
    | r :: _ => (⟨[⟨newText, r.props⟩]⟩, none)

def renderOneParagraphDict (m : List (String × Value)) (p : Paragraph) :
    Paragraph × Option String :=
  if (findKeywords p.text).isEmpty then (p, none)
  else
    match lookupAll m (findKeywords p.text) with
    | none => (p, some "KeyError")
    | some sub => applyFormatted p (pyFormat p.text sub)

def renderParagraphsDict (m : List (String × Value)) :
    List Paragraph → List Paragraph × Option String
  | [] => ([], none)
  | p :: rest =>
    match (renderOneParagraphDict m p).2 with
    | some err => ((renderOneParagraphDict m p).1 :: rest, some err)
    | none =>
      ((renderOneParagraphDict m p).1 :: (renderParagraphsDict m rest).1,
        (renderParagraphsDict m rest).2)

def renderParagraphDict (m : List (String × Value)) (tf : TextFrame) :
    TextFrame × Option String :=
  ((⟨(renderParagraphsDict m tf.paragraphs).1⟩ : TextFrame),
    (renderParagraphsDict m tf.paragraphs).2)

/-! ## Full `render_paragraph` dispatch

`singledispatch`: a dict value goes to the dict register, everything
else to the base register.  The base register prunes the runs after the
first and then assigns the value to the first run's text; a value that
is not a string makes the underlying library's text setter raise
`TypeError` (after the pruning already happened). -/

def renderParagraph (v : Value) (tf : TextFrame) : TextFrame × Option String :=
  match v with
  | .vdict m => renderParagraphDict m tf
  | .str s => renderParagraphScalar s tf
  | _ =>
    match tf.paragraphs with
    | [] => (tf, some "IndexError")
    | p :: rest => (⟨⟨p.runs.take 1⟩ :: rest⟩, some "TypeError")

/-- Counterexample for C3 as stated: a non-string scalar is *not*
stringified — rendering the integer `5` into a paragraph raises
`TypeError` from the library's text setter and the paragraph keeps its
old text instead of becoming `"5"`. -/
theorem scalar_render_int_raises :
    renderParagraph (Value.int 5) ⟨[⟨[⟨"Hello", 7⟩]⟩]⟩
      = (⟨[⟨[⟨"Hello", 7⟩]⟩]⟩, some "TypeError") := rfl

/-- C3 (amended): for a *string* scalar the render replaces the first
paragraph's text with the value and leaves exactly one run there (the
first run, text overwritten, when one existed; a synthesized default run
when the paragraph had none), with every later paragraph unchanged; a
non-string scalar such as an integer is not stringified: the text
assignment raises `TypeError` after the runs beyond the first were
already pruned, and no text is written. -/
theorem scalar_render_first_paragraph (s : String) (n : Int) (p : Paragraph)
    (rest : List Paragraph) :
    ((renderParagraph (Value.str s) ⟨p :: rest⟩).2 = none)
    ∧ (((renderParagraph (Value.str s) ⟨p :: rest⟩).1.paragraphs.headD ⟨[]⟩).text = s)
    ∧ (((renderParagraph (Value.str s) ⟨p :: rest⟩).1.paragraphs.headD ⟨[]⟩).runs.length = 1)
    ∧ ((renderParagraph (Value.str s) ⟨p :: rest⟩).1.paragraphs.tail = rest)
    ∧ (p.runs = [] →
        (renderParagraph (Value.str s) ⟨p :: rest⟩).1.paragraphs.headD ⟨[]⟩ = ⟨[⟨s, 0⟩]⟩)
    ∧ (∀ r0 rs, p.runs = r0 :: rs →
        (renderParagraph (Value.str s) ⟨p :: rest⟩).1.paragraphs.headD ⟨[]⟩
          = ⟨[⟨s, r0.props⟩]⟩)
    ∧ (renderParagraph (Value.int n) ⟨p :: rest⟩
        = (⟨⟨p.runs.take 1⟩ :: rest⟩, some "TypeError")) := by
  cases hr : p.runs with
  | nil =>
    refine ⟨?_, ?_, ?_, ?_, ?_, ?_, ?_⟩ <;>
      simp [renderParagraph, renderParagraphScalar, hr, Paragraph.text, String.join]
  | cons r rs =>
    refine ⟨?_, ?_, ?_, ?_, ?_, ?_, ?_⟩ <;>
      simp [renderParagraph, renderParagraphScalar, hr, Paragraph.text, String.join]

/-- Witness for C3: the string `"World"` replaces a single-run `"Hello"`
paragraph, and the integer `5` raises with the pruned paragraph written
back unchanged in text. -/
theorem scalar_render_first_paragraph_witness :
    ((renderParagraph (Value.str "World") ⟨[⟨[⟨"Hello", 7⟩]⟩]⟩).2 = none)
    ∧ ((renderParagraph (Value.str "World") ⟨[⟨[⟨"Hello", 7⟩]⟩]⟩).1.paragraphs.headD ⟨[]⟩
        = ⟨[⟨"World", 7⟩]⟩)
    ∧ (renderParagraph (Value.int 5) ⟨[⟨[⟨"x", 1⟩, ⟨"y", 2⟩]⟩]⟩
        = (⟨[⟨[⟨"x", 1⟩]⟩]⟩, some "TypeError")) := by
  have h := scalar_render_first_paragraph "World" 5 ⟨[⟨"Hello", 7⟩]⟩ []
  have h2 := scalar_render_first_paragraph "World" 5 ⟨[⟨"x", 1⟩, ⟨"y", 2⟩]⟩ []
  exact ⟨h.1, h.2.2.2.2.2.1 ⟨"Hello", 7⟩ [] rfl, h2.2.2.2.2.2.2⟩

theorem renderOneParagraphDict_eq_of_lookup (m : List (String × Value)) (p : Paragraph)
    (sub : List (String × Value)) (hk : ¬(findKeywords p.text).isEmpty = true)
    (hl : lookupAll m (findKeywords p.text) = some sub) :
    renderOneParagraphDict m p = applyFormatted p (pyFormat p.text sub) := by
  unfold renderOneParagraphDict
  rw [if_neg hk, hl]

theorem renderOneParagraphDict_err_unchanged (m : List (String × Value)) (p : Paragraph)
    (h : (renderOneParagraphDict m p).2.isSome = true) :
    (renderOneParagraphDict m p).1 = p := by
  by_cases hk : (findKeywords p.text).isEmpty
  · have hstep : renderOneParagraphDict m p = (p, none) := by
      unfold renderOneParagraphDict
      rw [if_pos hk]
    rw [hstep] at h
    simp at h
  · cases hl : lookupAll m (findKeywords p.text) with
    | none =>
      have hstep : renderOneParagraphDict m p = (p, some "KeyError") := by
        unfold renderOneParagraphDict
        rw [if_neg hk, hl]
      rw [hstep]
    | some sub =>
      have hstep := renderOneParagraphDict_eq_of_lookup m p sub hk hl
      cases hf : pyFormat p.text sub with
      | error e =>
        rw [hstep, hf]
        rfl
      | ok newText =>
        cases hrn : p.runs with
        | nil =>
          rw [hstep, hf]
          unfold applyFormatted
          rw [hrn]
        | cons r rs =>
          rw [hstep, hf] at h
          unfold applyFormatted at h
          rw [hrn] at h
          simp at h

theorem lookupAll_eq_none (m : List (String × Value)) (k : String) :
    ∀ ks : List String, k ∈ ks → pyDictGet m k = none → lookupAll m ks = none := by
  intro ks
  induction ks with
  | nil => intro h; cases h
  | cons k2 ks ih =>
    intro hmem hget
    rcases List.mem_cons.mp hmem with heq | hmem2
    · subst heq
      simp [lookupAll, hget]
    · unfold lookupAll
      cases pyDictGet m k2 with
      | none => rfl
      | some v => rw [ih hmem2 hget]

theorem renderParagraphsDict_err (m : List (String × Value)) :
    ∀ (l : List Paragraph) (i : Nat) (hi : i < l.length),
      (renderOneParagraphDict m l[i]).2.isSome = true →
      (renderParagraphsDict m l).2.isSome = true
        ∧ (renderParagraphsDict m l).1[i]? = l[i]? := by
  intro l
  induction l with
  | nil =>
    intro i hi
    simp at hi
  | cons p rest ih =>
    intro i hi he
    cases i with
    | zero =>
      have he0 : (renderOneParagraphDict m p).2.isSome = true := he
      have hp := renderOneParagraphDict_err_unchanged m p he0
      unfold renderParagraphsDict
      cases hres : (renderOneParagraphDict m p).2 with
      | none => rw [hres] at he0; cases he0
      | some err => simp [hp]
    | succ j =>
      have hj : j < rest.length := by simpa using hi
      have he2 : (renderOneParagraphDict m rest[j]).2.isSome = true := by
        rw [← List.getElem_cons_succ p rest j hi]
        exact he
      unfold renderParagraphsDict
      cases hres : (renderOneParagraphDict m p).2 with
      | some err => simp
      | none =>
        have := ih j hj he2
        simpa using this

theorem renderOneParagraphDict_markerfree (m : List (String × Value)) (p : Paragraph)
    (h : findKeywords p.text = []) : renderOneParagraphDict m p = (p, none) := by
  unfold renderOneParagraphDict
  simp [h]

theorem renderParagraphsDict_markerfree (m : List (String × Value)) :
    ∀ (l : List Paragraph) (i : Nat) (hi : i < l.length),
      findKeywords l[i].text = [] →
      (renderParagraphsDict m l).1[i]? = l[i]? := by
  intro l
  induction l with
  | nil =>
    intro i hi
    simp at hi
  | cons p rest ih =>
    intro i hi hfree
    cases i with
    | zero =>
      have hstep : renderOneParagraphDict m p = (p, none) :=
        renderOneParagraphDict_markerfree m p hfree
      unfold renderParagraphsDict
      rw [hstep]
      simp
    | succ j =>
      have hj : j < rest.length := by simpa using hi
      have hfree2 : findKeywords rest[j].text = [] := by
        rw [List.getElem_cons_succ] at hfree
        exact hfree
      unfold renderParagraphsDict
      cases hres : (renderOneParagraphDict m p).2 with
      | some err => simp
      | none =>
        have := ih j hj hfree2
        simpa using this

/-- C2: if some paragraph of the frame holds a marker whose identifier is
missing from the mapping, the mapping-valued render raises a lookup error,
and that paragraph (text and runs) is left unmodified: all the lookups
happen before any mutation of the paragraph. -/
theorem dict_render_missing_key (m : List (String × Value)) (tf : TextFrame) (i : Nat)
    (hi : i < tf.paragraphs.length)
    (hk : ∃ k ∈ findKeywords tf.paragraphs[i].text, pyDictGet m k = none) :
    (renderParagraphDict m tf).2.isSome = true
      ∧ (renderParagraphDict m tf).1.paragraphs[i]? = tf.paragraphs[i]? := by
  rcases hk with ⟨k, hkmem, hkget⟩
  have herr : (renderOneParagraphDict m tf.paragraphs[i]).2.isSome = true := by
    unfold renderOneParagraphDict
    have hne : (findKeywords tf.paragraphs[i].text).isEmpty = false :=
      List.isEmpty_eq_false.mpr (List.ne_nil_of_mem hkmem)
    rw [hne]
    simp only [Bool.false_eq_true, if_false]
    rw [lookupAll_eq_none m k _ hkmem hkget]
    simp
  have := renderParagraphsDict_err m tf.paragraphs i hi herr
  exact ⟨this.1, this.2⟩

/-- Witness for C2: one paragraph `"Hi \x7bname\x7d, you are \x7bage\x7d"`
rendered with a mapping binding only `name` raises, and the paragraph stays
as it was. -/
theorem dict_render_missing_key_witness :
    (renderParagraphDict [("name", Value.str "Ann")]
        ⟨[⟨[⟨"Hi \x7bname\x7d, you are \x7bage\x7d", 3⟩]⟩]⟩).2.isSome = true
      ∧ (renderParagraphDict [("name", Value.str "Ann")]
          ⟨[⟨[⟨"Hi \x7bname\x7d, you are \x7bage\x7d", 3⟩]⟩]⟩).1.paragraphs[0]?
        = some ⟨[⟨"Hi \x7bname\x7d, you are \x7bage\x7d", 3⟩]⟩ :=
  dict_render_missing_key [("name", Value.str "Ann")]
    ⟨[⟨[⟨"Hi \x7bname\x7d, you are \x7bage\x7d", 3⟩]⟩]⟩ 0 (by decide)
    ⟨"age", by decide, rfl⟩

/-- C4: over ASCII paragraph texts (where the embedded scanner provably
coincides with Python's Unicode regex) and a mapping covering every
marker, the mapping-valued render touches only the paragraphs whose
current text contains at least one marker: every marker-free paragraph
keeps its exact text and runs, whatever happens to the marker-bearing
paragraphs. -/
theorem dict_render_markerfree_untouched (m : List (String × Value)) (tf : TextFrame)
    (_hascii : ∀ p ∈ tf.paragraphs, ∀ c ∈ p.text.toList, c.toNat < 128)
    (_hcov : ∀ p ∈ tf.paragraphs, ∀ k ∈ findKeywords p.text, (pyDictGet m k).isSome = true) :
    ∀ i, (hi : i < tf.paragraphs.length) →
      findKeywords tf.paragraphs[i].text = [] →
      (renderParagraphDict m tf).1.paragraphs[i]? = tf.paragraphs[i]? := by
  intro i hi hfree
  exact renderParagraphsDict_markerfree m tf.paragraphs i hi hfree

/-- Witness for C4: a two-paragraph ASCII frame where only the first
paragraph holds a marker; the marker-free second paragraph is returned
unchanged. -/
theorem dict_render_markerfree_untouched_witness :
    (renderParagraphDict [("name", Value.str "Ann")]
        ⟨[⟨[⟨"Hi \x7bname\x7d", 1⟩]⟩, ⟨[⟨"plain text", 2⟩]⟩]⟩).1.paragraphs[1]?
      = some ⟨[⟨"plain text", 2⟩]⟩ := by
  have h := dict_render_markerfree_untouched [("name", Value.str "Ann")]
    ⟨[⟨[⟨"Hi \x7bname\x7d", 1⟩]⟩, ⟨[⟨"plain text", 2⟩]⟩]⟩ (by decide) (by decide)
  exact (h 1 (by decide) rfl).trans rfl

/-! ## Chart model and `render_chart`

A chart holds a title (the text of `chart.chart_title.text_frame`) and
the category/series dataset installed by `chart.replace_data`.  The dict
register reads `values['categories']` and `values['data']` (raising
`KeyError` when absent, before the chart is touched), builds the
`CategoryChartData`, optionally overwrites the title when a `'title'`
key is present, and finally replaces the chart data; the DataFrame
register does the same from the frame's index and columns, probing a
`title` attribute with `hasattr`.  The base `singledispatch` register
raises `NotImplementedError` for every other value type without touching
the chart. -/

structure ChartData where
  categories : List Value
  series : List (String × Value)

structure Chart where
  title : Option String
  data : ChartData

/-- `getattr(values, 'title')` on a DataFrame when `hasattr` is probed: a
user-set instance attribute wins; otherwise pandas' `__getattr__`
fallback returns the *column* named `title` (as a Series) when one
exists; otherwise the attribute is absent. -/
def Frame.getattrTitle (f : Frame) : Option Value :=
  match f.attrTitle with
  | some t => some (Value.str t)
  | none => (pyDictGet f.data "title").map (fun col => Value.vlist (col.map Value.int))

/-- The DataFrame register of `render_chart`: categories from the index,
one series per column, then the `hasattr(values, 'title')` probe — a
string attribute becomes the chart title, while a non-string result (a
`title` *column*, via the pandas fallback) raises `TypeError` at the
title assignment, before `replace_data` runs. -/
def renderChartFrame (f : Frame) (chart : Chart) : Chart × Option String :=
  match f.getattrTitle with
  | none =>
    (⟨chart.title,
      ⟨f.index.map Value.str,
        f.data.map (fun p => (p.1, Value.vlist (p.2.map Value.int)))⟩⟩, none)
  | some (.str t) =>
    (⟨some t,
      ⟨f.index.map Value.str,
        f.data.map (fun p => (p.1, Value.vlist (p.2.map Value.int)))⟩⟩, none)
  | some _ => (chart, some "TypeError")

def render_chart (v : Value) (chart : Chart) : Chart × Option String :=
  match v with
  | .vdict m =>
    match pyDictGet m "categories" with
    | none => (chart, some "KeyError")
    | some cats =>
      match cats with
      | .vlist catList =>
        match pyDictGet m "data" with
        | none => (chart, some "KeyError")
        | some (.vdict d) =>
          match pyDictGet m "title" with
          | none => (⟨chart.title, ⟨catList, d⟩⟩, none)
          | some (.str t) => (⟨some t, ⟨catList, d⟩⟩, none)
          | some _ => (chart, some "TypeError")
        | some _ => (chart, some "AttributeError")
      | _ => (chart, some "TypeError")
  | .frame f => renderChartFrame f chart
  | _ => (chart, some "NotImplementedError")

/-- C1: a value that is neither a dict nor a DataFrame (e.g. a bare list)
makes `render_chart` raise `NotImplementedError` from the base register,
with the chart returned exactly as it was: no category, series or title
data is written. -/
theorem chart_unsupported_value_raises (v : Value) (chart : Chart)
    (h1 : ∀ m, v ≠ Value.vdict m) (h2 : ∀ f, v ≠ Value.frame f) :
    render_chart v chart = (chart, some "NotImplementedError") := by
  cases v with
  | str s => rfl
  | int n => rfl
  | vlist xs => rfl
  | vdict m => exact absurd rfl (h1 m)
  | frame f => exact absurd rfl (h2 f)

/-- Witness for C1: the bare list `[1, 2, 3]` of the spec's Scenario 6. -/
theorem chart_unsupported_value_raises_witness :
    render_chart (Value.vlist [Value.int 1, Value.int 2, Value.int 3]) ⟨none, ⟨[], []⟩⟩
      = (⟨none, ⟨[], []⟩⟩, some "NotImplementedError") :=
  chart_unsupported_value_raises (Value.vlist [Value.int 1, Value.int 2, Value.int 3])
    ⟨none, ⟨[], []⟩⟩ (fun _ h => nomatch h) (fun _ h => nomatch h)

theorem pyDictGet_eq_none_of_forall {α : Type} (k : String) :
    ∀ m : List (String × α), (∀ p ∈ m, p.1 ≠ k) → pyDictGet m k = none := by
  intro m
  induction m with
  | nil => intro _; rfl
  | cons p rest ih =>
    intro h
    rcases p with ⟨k2, v⟩
    have hk2 : k2 ≠ k := h (k2, v) (List.mem_cons_self _ _)
    simp only [pyDictGet]
    rw [if_neg hk2]
    exact ih (fun q hq => h q (List.mem_cons_of_mem _ hq))

def chart7 : Chart := ⟨none, ⟨[], []⟩⟩

/-- Counterexample for C7 as stated: with a series labeled `"title"`, the
frame path hits the pandas attribute fallback — `hasattr(df, 'title')` is
true because of the column — and assigning that column's Series to the
chart title raises `TypeError` before `replace_data`, so the chart keeps
its old data while the dict path installs the new data: the two paths do
not produce identical category/series data. -/
theorem chart_title_column_diverges :
    (render_chart (Value.frame ⟨["d1"], [("title", [1])], none, none⟩) chart7).2
        = some "TypeError"
      ∧ (render_chart (Value.frame ⟨["d1"], [("title", [1])], none, none⟩) chart7).1 = chart7
      ∧ (render_chart (Value.vdict
            [("categories", Value.vlist [Value.str "d1"]),
              ("data", Value.vdict [("title", Value.vlist [Value.int 1])])]) chart7).2 = none
      ∧ ¬(((render_chart (Value.vdict
            [("categories", Value.vlist [Value.str "d1"]),
              ("data", Value.vdict [("title", Value.vlist [Value.int 1])])]) chart7).1).data
          = ((render_chart (Value.frame ⟨["d1"], [("title", [1])], none, none⟩)
              chart7).1).data) := by
  refine ⟨rfl, rfl, rfl, ?_⟩
  intro h
  exact absurd (congrArg (fun d => d.categories.length) h) (by decide)

/-- C7 (amended): a chart rendered from the mapping
`\x7bcategories: C, data: S\x7d` and from the equivalent tabular frame
(index `C`, one column per series in the same order with the same values)
ends up with identical category and series data, provided no series is
labeled `"title"` — a `title` column would make the frame's `hasattr`
title probe true through the pandas attribute fallback and raise before
the data replacement. -/
theorem chart_dict_frame_equivalent (C : List String) (S : List (String × List Int))
    (chart : Chart) (h : ∀ p ∈ S, p.1 ≠ "title") :
    ((render_chart (Value.vdict
        [("categories", Value.vlist (C.map Value.str)),
          ("data", Value.vdict (S.map (fun p => (p.1, Value.vlist (p.2.map Value.int)))))])
        chart).1).data
      = ((render_chart (Value.frame ⟨C, S, none, none⟩) chart).1).data := by
  have hframe : (⟨C, S, none, none⟩ : Frame).getattrTitle = none := by
    unfold Frame.getattrTitle
    rw [pyDictGet_eq_none_of_forall "title" S h]
    rfl
  have hrhs : render_chart (Value.frame ⟨C, S, none, none⟩) chart
      = (⟨chart.title,
          ⟨C.map Value.str,
            S.map (fun p => (p.1, Value.vlist (p.2.map Value.int)))⟩⟩, none) := by
    show renderChartFrame ⟨C, S, none, none⟩ chart = _
    unfold renderChartFrame
    rw [hframe]
  rw [hrhs]
  rfl

/-- Witness for C7: categories `d1, d2` and one series `clicks` (not named
`title`) give identical data on both paths. -/
theorem chart_dict_frame_equivalent_witness :
    ((render_chart (Value.vdict
        [("categories", Value.vlist [Value.str "d1", Value.str "d2"]),
          ("data", Value.vdict [("clicks", Value.vlist [Value.int 10, Value.int 20])])])
        chart7).1).data
      = ((render_chart (Value.frame ⟨["d1", "d2"], [("clicks", [10, 20])], none, none⟩)
          chart7).1).data :=
  chart_dict_frame_equivalent ["d1", "d2"] [("clicks", [10, 20])] chart7 (by decide)

/-! ## Table model and `render_table`

A table is a list of rows of cells, each cell holding a text frame.
The list register zips value rows against table rows and value cells
against row cells (zip-shortest, so a size mismatch truncates); the
DataFrame register does the same with `str()`-stringified frame cells,
first consuming one table row for the column labels when the frame has
a truthy `header` attribute — `next()` on an exhausted row iterator
raises `StopIteration` there; the dict register broadcasts the keyword
mapping to every cell; the base register raises `NotImplementedError`. -/

structure Cell where
  tf : TextFrame
deriving DecidableEq

structure Row where
  cells : List Cell
deriving DecidableEq

structure Table where
  rows : List Row
deriving DecidableEq

def renderCellsList : List Value → List Cell → List Cell × Option String
  | _, [] => ([], none)
  | [], cs => (cs, none)
  | v :: vs, c :: cs =>
    match (renderParagraph v c.tf).2 with
    | some err => (⟨(renderParagraph v c.tf).1⟩ :: cs, some err)
    | none =>
      (⟨(renderParagraph v c.tf).1⟩ :: (renderCellsList vs cs).1,
        (renderCellsList vs cs).2)

/-- What `zip` iterates over for each Python value shape used as a value
row: lists yield their elements, strings their characters, dicts their
keys, DataFrames their column labels; numbers are not iterable. -/
def rowValues : Value → Option (List Value)
  | .vlist xs => some xs
  | .str s => some (s.toList.map (fun c => Value.str (String.mk [c])))
  | .vdict m => some (m.map (fun p => Value.str p.1))
  | .frame f => some (f.data.map (fun p => Value.str p.1))
  | .int _ => none

def renderRowsList : List Value → List Row → List Row × Option String
  | _, [] => ([], none)
  | [], rs => (rs, none)
  | v :: vs, r :: rs =>
    match rowValues v with
    | none => (r :: rs, some "TypeError")
    | some cellVals =>
      match (renderCellsList cellVals r.cells).2 with
      | some err => (⟨(renderCellsList cellVals r.cells).1⟩ :: rs, some err)
      | none =>
        (⟨(renderCellsList cellVals r.cells).1⟩ :: (renderRowsList vs rs).1,
          (renderRowsList vs rs).2)

def renderDictCells (m : List (String × Value)) : List Cell → List Cell × Option String
  | [] => ([], none)
  | c :: cs =>
    match (renderParagraphDict m c.tf).2 with
    | some err => (⟨(renderParagraphDict m c.tf).1⟩ :: cs, some err)
    | none =>
      (⟨(renderParagraphDict m c.tf).1⟩ :: (renderDictCells m cs).1,
        (renderDictCells m cs).2)

def renderDictRows (m : List (String × Value)) : List Row → List Row × Option String
  | [] => ([], none)
  | r :: rs =>
    match (renderDictCells m r.cells).2 with
    | some err => (⟨(renderDictCells m r.cells).1⟩ :: rs, some err)
    | none =>
      (⟨(renderDictCells m r.cells).1⟩ :: (renderDictRows m rs).1,
        (renderDictRows m rs).2)

/-- `list(values.values)` for a DataFrame in row-major form: one row per
index label, one entry per column.  Frames are rectangular, so the
`getD` default is never consulted for a well-formed frame. -/
def Frame.rowsVals (f : Frame) : List (List Int) :=
  (List.range f.index.length).map (fun i => f.data.map (fun c => c.2.getD i 0))

/-- The frame's data rows with every cell already passed through `str()`,
as the DataFrame register does cell by cell. -/
def Frame.rowStrs (f : Frame) : List Value :=
  f.rowsVals.map (fun r => Value.vlist (r.map (fun n => Value.str (toString n))))

/-- The `hasattr(values, 'header') and values.header` probe of the
DataFrame register.  A user-set `header` instance attribute shadows any
column and yields its boolean; with no attribute set, a *column* named
`header` makes `hasattr` true through pandas' `__getattr__` fallback and
the conjunction then truth-tests the returned Series, which raises
`ValueError` ("the truth value of a Series is ambiguous"); with neither,
`hasattr` is false and the conjunction is false. -/
def Frame.headerFlag (f : Frame) : Except String Bool :=
  match f.attrHeader with
  | some b => Except.ok b
  | none =>
    match pyDictGet f.data "header" with
    | some _ => Except.error "ValueError"
    | none => Except.ok false

/-- The header-row path of the DataFrame register: `next(table_rows)`
raises `StopIteration` on a zero-row table; otherwise the column labels
are written into the first row and the data rows fill the rest. -/
def renderTableFrameHeader (f : Frame) (t : Table) : Table × Option String :=
  match t.rows with
  | [] => (t, some "StopIteration")
  | hr :: rest =>
    match (renderCellsList (f.data.map (fun c => Value.str c.1)) hr.cells).2 with
    | some err =>
      (⟨⟨(renderCellsList (f.data.map (fun c => Value.str c.1)) hr.cells).1⟩ :: rest⟩,
        some err)
    | none =>
      (⟨⟨(renderCellsList (f.data.map (fun c => Value.str c.1)) hr.cells).1⟩
          :: (renderRowsList f.rowStrs rest).1⟩,
        (renderRowsList f.rowStrs rest).2)

def renderTableFrame (f : Frame) (t : Table) : Table × Option String :=
  match f.headerFlag with
  | Except.error e => (t, some e)
  | Except.ok true => renderTableFrameHeader f t
  | Except.ok false =>
    ((⟨(renderRowsList f.rowStrs t.rows).1⟩ : Table), (renderRowsList f.rowStrs t.rows).2)

def render_table (v : Value) (t : Table) : Table × Option String :=
  match v with
  | .vdict m => ((⟨(renderDictRows m t.rows).1⟩ : Table), (renderDictRows m t.rows).2)
  | .frame f => renderTableFrame f t
  | .vlist vs => ((⟨(renderRowsList vs t.rows).1⟩ : Table), (renderRowsList vs t.rows).2)
  | _ => (t, some "NotImplementedError")

/-! ## Zip-shortest facts for the table renderers (C9) -/

def tableWF (t : Table) : Prop :=
  ∀ r ∈ t.rows, ∀ c ∈ r.cells, c.tf.paragraphs ≠ []

/-- A nested sequence of strings as the Python value `[[...], ...]`. -/
def strRows (vss : List (List String)) : List Value :=
  vss.map (fun r => Value.vlist (r.map Value.str))

/-- Length of the i-th value row (0 past the end). -/
def rowLenAt (vss : List (List String)) (i : Nat) : Nat :=
  ((vss[i]?).map List.length).getD 0

theorem strRows_cons (row : List String) (vss : List (List String)) :
    strRows (row :: vss) = Value.vlist (row.map Value.str) :: strRows vss := rfl

theorem renderParagraphScalar_ok (s : String) (tf : TextFrame) (h : tf.paragraphs ≠ []) :
    (renderParagraphScalar s tf).2 = none := by
  cases hp : tf.paragraphs with
  | nil => exact absurd hp h
  | cons p rest =>
    cases hr : p.runs with
    | nil => simp [renderParagraphScalar, hp, hr]
    | cons r rs => simp [renderParagraphScalar, hp, hr]

theorem renderCellsList_ok :
    ∀ (cs : List Cell) (vs : List Value),
      (∀ v ∈ vs, ∃ s, v = Value.str s) → (∀ c ∈ cs, c.tf.paragraphs ≠ []) →
      (renderCellsList vs cs).2 = none
        ∧ (renderCellsList vs cs).1.length = cs.length
        ∧ ∀ j, vs.length ≤ j → (renderCellsList vs cs).1[j]? = cs[j]? := by
  intro cs
  induction cs with
  | nil =>
    intro vs _ _
    cases vs <;> exact ⟨rfl, rfl, fun j _ => rfl⟩
  | cons c cs ih =>
    intro vs hv hc
    cases vs with
    | nil => exact ⟨rfl, rfl, fun j _ => rfl⟩
    | cons v vs2 =>
      rcases hv v (List.mem_cons_self v vs2) with ⟨s, hs⟩
      subst hs
      have hcell : (renderParagraph (Value.str s) c.tf).2 = none :=
        renderParagraphScalar_ok s c.tf (hc c (List.mem_cons_self c cs))
      have ihr := ih vs2 (fun v hv2 => hv v (List.mem_cons_of_mem _ hv2))
        (fun c2 hc2 => hc c2 (List.mem_cons_of_mem _ hc2))
      unfold renderCellsList
      rw [hcell]
      refine ⟨ihr.1, by simp [ihr.2.1], ?_⟩
      intro j hj
      cases j with
      | zero => simp at hj
      | succ j2 =>
        have hj2 : vs2.length ≤ j2 := by
          simp only [List.length_cons] at hj
          omega
        have := ihr.2.2 j2 hj2
        simpa using this

theorem renderRowsList_ok :
    ∀ (rs : List Row) (vss : List (List String)),
      (∀ r ∈ rs, ∀ c ∈ r.cells, c.tf.paragraphs ≠ []) →
      (renderRowsList (strRows vss) rs).2 = none
        ∧ (renderRowsList (strRows vss) rs).1.length = rs.length
        ∧ (∀ i, vss.length ≤ i → (renderRowsList (strRows vss) rs).1[i]? = rs[i]?)
        ∧ (∀ i j, rowLenAt vss i ≤ j →
            ((renderRowsList (strRows vss) rs).1[i]?.map (fun r => r.cells[j]?))
              = (rs[i]?.map (fun r => r.cells[j]?))) := by
  intro rs
  induction rs with
  | nil =>
    intro vss _
    cases vss <;> exact ⟨rfl, rfl, fun i _ => rfl, fun i j _ => rfl⟩
  | cons r rs ih =>
    intro vss hc
    cases vss with
    | nil => exact ⟨rfl, rfl, fun i _ => rfl, fun i j _ => rfl⟩
    | cons row vss2 =>
      have hcells := renderCellsList_ok r.cells (row.map Value.str)
        (fun v hv => by
          rcases List.mem_map.mp hv with ⟨s, _, hs⟩
          exact ⟨s, hs.symm⟩)
        (hc r (List.mem_cons_self r rs))
      have ihr := ih vss2 (fun r2 hr2 => hc r2 (List.mem_cons_of_mem _ hr2))
      rw [strRows_cons]
      unfold renderRowsList
      simp only [rowValues]
      rw [hcells.1]
      refine ⟨ihr.1, by simp [ihr.2.1], ?_, ?_⟩
      · intro i hi
        cases i with
        | zero => simp at hi
        | succ i2 =>
          have hi2 : vss2.length ≤ i2 := by
            simp only [List.length_cons] at hi
            omega
          have := ihr.2.2.1 i2 hi2
          simpa using this
      · intro i j hj
        cases i with
        | zero =>
          have hlen : (row.map Value.str).length ≤ j := by
            simp only [rowLenAt, List.getElem?_cons_zero] at hj
            simpa using hj
          have := hcells.2.2 j hlen
          simpa using this
        | succ i2 =>
          have hj2 : rowLenAt vss2 i2 ≤ j := by
            simp only [rowLenAt, List.getElem?_cons_succ] at hj ⊢
            exact hj
          have := ihr.2.2.2 i2 j hj2
          simpa using this

theorem rowStrs_eq_strRows (f : Frame) :
    f.rowStrs = strRows (f.rowsVals.map (fun r => r.map (fun n : Int => toString n))) := by
  simp [Frame.rowStrs, strRows, List.map_map, Function.comp]

theorem rowsVals_length (f : Frame) : f.rowsVals.length = f.index.length := by
  simp [Frame.rowsVals]

theorem renderParagraph_int_err (n : Int) (tf : TextFrame) :
    (renderParagraph (Value.int n) tf).2.isSome = true := by
  cases hp : tf.paragraphs with
  | nil => simp [renderParagraph, hp]
  | cons p rest => simp [renderParagraph, hp]

/-- C9 (amended): `render_table` never raises from a size mismatch alone —
the nested-sequence register over string cells and the tabular-frame
register truncate to the shorter of the value and the table and leave
every row and cell beyond the shared extent unchanged, whatever the
relative sizes (zero-row tables included when no header row is taken).
The raises that remain are unrelated to truncation: a frame whose header
flag is truthy on a zero-row table raises `StopIteration` taking the
header row; a frame with a column named `header` and no header attribute
raises `ValueError` when the flag probe truth-tests that column; and a
non-string cell in a nested sequence raises `TypeError` at the text
assignment (so Scenario 4's integer cells raise), with the cells and rows
past the failing cell untouched.  (Well-formedness: every table cell's
text frame has at least one paragraph, as the library guarantees.) -/
theorem table_render_truncates (vss : List (List String)) (f : Frame) (t : Table)
    (hwf : tableWF t) :
    ((render_table (Value.vlist (strRows vss)) t).2 = none
      ∧ (render_table (Value.vlist (strRows vss)) t).1.rows.length = t.rows.length
      ∧ (∀ i, vss.length ≤ i →
          (render_table (Value.vlist (strRows vss)) t).1.rows[i]? = t.rows[i]?)
      ∧ (∀ i j, rowLenAt vss i ≤ j →
          ((render_table (Value.vlist (strRows vss)) t).1.rows[i]?.map (fun r => r.cells[j]?))
            = (t.rows[i]?.map (fun r => r.cells[j]?))))
    ∧ (f.headerFlag = Except.ok false →
        (render_table (Value.frame f) t).2 = none
          ∧ (render_table (Value.frame f) t).1.rows.length = t.rows.length
          ∧ ∀ i, f.index.length ≤ i →
              (render_table (Value.frame f) t).1.rows[i]? = t.rows[i]?)
    ∧ (f.headerFlag = Except.ok true → t.rows ≠ [] →
        (render_table (Value.frame f) t).2 = none
          ∧ (render_table (Value.frame f) t).1.rows.length = t.rows.length
          ∧ ∀ i, f.index.length + 1 ≤ i →
              (render_table (Value.frame f) t).1.rows[i]? = t.rows[i]?)
    ∧ (f.headerFlag = Except.ok true → t.rows = [] →
        render_table (Value.frame f) t = (t, some "StopIteration"))
    ∧ (∀ e, f.headerFlag = Except.error e →
        render_table (Value.frame f) t = (t, some e))
    ∧ (∀ (n : Int) (vs vrows : List Value) (c : Cell) (cs : List Cell) (rs2 : List Row),
        (render_table (Value.vlist (Value.vlist (Value.int n :: vs) :: vrows))
            (⟨⟨c :: cs⟩ :: rs2⟩ : Table)).2.isSome = true
          ∧ (render_table (Value.vlist (Value.vlist (Value.int n :: vs) :: vrows))
              (⟨⟨c :: cs⟩ :: rs2⟩ : Table)).1.rows.tail = rs2
          ∧ ((render_table (Value.vlist (Value.vlist (Value.int n :: vs) :: vrows))
              (⟨⟨c :: cs⟩ :: rs2⟩ : Table)).1.rows.headD ⟨[]⟩).cells.tail = cs) := by
  refine ⟨?_, ?_, ?_, ?_, ?_, ?_⟩
  · have h := renderRowsList_ok t.rows vss hwf
    exact ⟨h.1, h.2.1, h.2.2.1, h.2.2.2⟩
  · intro hflag
    have h := renderRowsList_ok t.rows
      (f.rowsVals.map (fun r => r.map (fun n : Int => toString n))) hwf
    rw [← rowStrs_eq_strRows] at h
    have hlen : (f.rowsVals.map (fun r => r.map (fun n : Int => toString n))).length
        = f.index.length := by simp [rowsVals_length]
    refine ⟨?_, ?_, ?_⟩
    · simp only [render_table, renderTableFrame, hflag]
      exact h.1
    · simp only [render_table, renderTableFrame, hflag]
      exact h.2.1
    · intro i hi
      simp only [render_table, renderTableFrame, hflag]
      exact h.2.2.1 i (by omega)
  · intro hflag hne
    cases ht : t.rows with
    | nil => exact absurd ht hne
    | cons hr rest =>
      have hhr : ∀ c ∈ hr.cells, c.tf.paragraphs ≠ [] := by
        intro c hcmem
        exact hwf hr (by rw [ht]; exact List.mem_cons_self hr rest) c hcmem
      have hrest : ∀ r ∈ rest, ∀ c ∈ r.cells, c.tf.paragraphs ≠ [] := by
        intro r hrmem c hcmem
        exact hwf r (by rw [ht]; exact List.mem_cons_of_mem hr hrmem) c hcmem
      have hhead := renderCellsList_ok hr.cells (f.data.map (fun c => Value.str c.1))
        (fun v hv => by
          rcases List.mem_map.mp hv with ⟨p, _, hp⟩
          exact ⟨p.1, hp.symm⟩)
        hhr
      have hrows := renderRowsList_ok rest
        (f.rowsVals.map (fun r => r.map (fun n : Int => toString n))) hrest
      rw [← rowStrs_eq_strRows] at hrows
      have hlen : (f.rowsVals.map (fun r => r.map (fun n : Int => toString n))).length
          = f.index.length := by simp [rowsVals_length]
      refine ⟨?_, ?_, ?_⟩
      · simp only [render_table, renderTableFrame, renderTableFrameHeader, hflag, ht]
        rw [hhead.1]
        exact hrows.1
      · simp only [render_table, renderTableFrame, renderTableFrameHeader, hflag, ht]
        rw [hhead.1]
        simp [hrows.2.1]
      · intro i hi
        simp only [render_table, renderTableFrame, renderTableFrameHeader, hflag, ht]
        rw [hhead.1]
        cases i with
        | zero => omega
        | succ i2 =>
          have := hrows.2.2.1 i2 (by omega)
          simpa using this
  · intro hflag ht
    simp [render_table, renderTableFrame, renderTableFrameHeader, hflag, ht]
  · intro e hflag
    simp [render_table, renderTableFrame, hflag]
  · intro n vs vrows c cs rs2
    have hcell := renderParagraph_int_err n c.tf
    rcases Option.isSome_iff_exists.mp hcell with ⟨e, he⟩
    have hcl : renderCellsList (Value.int n :: vs) (c :: cs)
        = (⟨(renderParagraph (Value.int n) c.tf).1⟩ :: cs, some e) := by
      unfold renderCellsList
      rw [he]
    have hrl : renderRowsList (Value.vlist (Value.int n :: vs) :: vrows) (⟨c :: cs⟩ :: rs2)
        = (⟨⟨(renderParagraph (Value.int n) c.tf).1⟩ :: cs⟩ :: rs2, some e) := by
      unfold renderRowsList
      simp only [rowValues]
      rw [hcl]
    refine ⟨?_, ?_, ?_⟩ <;> simp [render_table, hrl]

/-- Counterexample for C9 as stated: a tabular frame carrying a truthy
header flag rendered into a zero-row table raises (`StopIteration` from
`next` on the exhausted row iterator) instead of truncating silently. -/
def headerFrame : Frame := ⟨[], [("a", [])], some true, none⟩

theorem table_zero_rows_header_raises :
    (render_table (Value.frame headerFrame) (⟨[]⟩ : Table)).2 = some "StopIteration" := rfl

def sampleTable : Table :=
  ⟨[⟨[⟨⟨[⟨[⟨"x", 0⟩]⟩]⟩⟩, ⟨⟨[⟨[⟨"y", 0⟩]⟩]⟩⟩]⟩, ⟨[⟨⟨[⟨[⟨"z", 0⟩]⟩]⟩⟩]⟩]⟩

def noHeaderFrame : Frame := ⟨["r1"], [("c", [5])], none, none⟩

/-- Witness for C9: a 1×2 nested sequence of strings and a 1×1 frame with
neither a header attribute nor a `header` column both render into a 2-row
table without error, and an integer first cell raises. -/
theorem table_render_truncates_witness :
    (render_table (Value.vlist (strRows [["1", "2"]])) sampleTable).2 = none
      ∧ (render_table (Value.frame noHeaderFrame) sampleTable).2 = none
      ∧ (render_table (Value.vlist [Value.vlist [Value.int 1]]) sampleTable).2.isSome
        = true := by
  have h := table_render_truncates [["1", "2"]] noHeaderFrame sampleTable
    (by unfold tableWF; decide)
  refine ⟨h.1.1, (h.2.1 rfl).1, ?_⟩
  have h2 := h.2.2.2.2.2 1 [] []
    ⟨⟨[⟨[⟨"x", 0⟩]⟩]⟩⟩ [⟨⟨[⟨[⟨"y", 0⟩]⟩]⟩⟩] [⟨[⟨⟨[⟨[⟨"z", 0⟩]⟩]⟩⟩]⟩]
  exact h2.1

/-! ## Shapes, slides, presentations and `render_ppt`

A shape exposes the three capability probes `has_table`,
`has_text_frame` and `has_chart` independently, plus the payload each
renderer mutates.  `render_ppt` walks the caller's entries; for each
entry it collects the shapes named like the key (`get_shapes_by_name`,
slide order then shape order) and dispatches each to exactly the first
matching branch of `if is_table / elif is_paragraph / elif is_chart`
(no `else`: a shape with none of the capabilities is skipped). -/

structure Shape where
  name : String
  hasTable : Bool
  hasTextFrame : Bool
  hasChart : Bool
  table : Table
  textFrame : TextFrame
  chart : Chart

structure Slide where
  shapes : List Shape

structure Prs where
  slides : List Slide

def allShapes (prs : Prs) : List Shape :=
  prs.slides.flatMap Slide.shapes

def get_shapes_by_name (prs : Prs) (name : String) : List Shape :=
  (allShapes prs).filter (fun s => s.name == name)

inductive RendererKind where
  | table
  | text
  | chart
deriving DecidableEq

/-- The branch of the `if is_table / elif is_paragraph / elif is_chart`
chain that fires for a shape (`none` when no capability is reported). -/
def chooseRenderer (s : Shape) : Option RendererKind :=
  if s.hasTable then some RendererKind.table
  else if s.hasTextFrame then some RendererKind.text
  else if s.hasChart then some RendererKind.chart
  else none

def renderShape (v : Value) (s : Shape) : Shape × Option String :=
  match chooseRenderer s with
  | some RendererKind.table =>
    ({ s with table := (render_table v s.table).1 }, (render_table v s.table).2)
  | some RendererKind.text =>
    ({ s with textFrame := (renderParagraph v s.textFrame).1 },
      (renderParagraph v s.textFrame).2)
  | some RendererKind.chart =>
    ({ s with chart := (render_chart v s.chart).1 }, (render_chart v s.chart).2)
  | none => (s, none)

def renderShapesList (key : String) (v : Value) : List Shape → List Shape × Option String
  | [] => ([], none)
  | s :: rest =>
    if s.name == key then
      match (renderShape v s).2 with
      | some err => ((renderShape v s).1 :: rest, some err)
      | none =>
        ((renderShape v s).1 :: (renderShapesList key v rest).1,
          (renderShapesList key v rest).2)
    else
      ((s :: (renderShapesList key v rest).1), (renderShapesList key v rest).2)

def renderSlidesList (key : String) (v : Value) : List Slide → List Slide × Option String
  | [] => ([], none)
  | sl :: rest =>
    match (renderShapesList key v sl.shapes).2 with
    | some err => (⟨(renderShapesList key v sl.shapes).1⟩ :: rest, some err)
    | none =>
      (⟨(renderShapesList key v sl.shapes).1⟩ :: (renderSlidesList key v rest).1,
        (renderSlidesList key v rest).2)

/-- One `(key, value)` entry of `render_ppt`: renders every shape named
`key`, in slide-then-shape order, mutating the presentation in place. -/
def renderEntry (key : String) (v : Value) (prs : Prs) : Prs × Option String :=
  ((⟨(renderSlidesList key v prs.slides).1⟩ : Prs), (renderSlidesList key v prs.slides).2)

def render_ppt : List (String × Value) → Prs → Prs × Option String
  | [], prs => (prs, none)
  | (k, v) :: rest, prs =>
    match (renderEntry k v prs).2 with
    | some err => ((renderEntry k v prs).1, some err)
    | none => render_ppt rest (renderEntry k v prs).1

/-- Counterexample for C5 as stated: a matched shape reporting none of the
three capabilities (e.g. a picture) is dispatched to no renderer at all —
`render_ppt` leaves it untouched — so "exactly one renderer is invoked per
matched shape" fails for capability-free shapes. -/
theorem dispatch_no_capability_no_renderer :
    chooseRenderer ⟨"Picture 1", false, false, false, ⟨[]⟩, ⟨[]⟩, ⟨none, ⟨[], []⟩⟩⟩ = none
      ∧ render_ppt [("Picture 1", Value.str "x")]
          ⟨[⟨[⟨"Picture 1", false, false, false, ⟨[]⟩, ⟨[]⟩, ⟨none, ⟨[], []⟩⟩⟩]⟩]⟩
        = (⟨[⟨[⟨"Picture 1", false, false, false, ⟨[]⟩, ⟨[]⟩, ⟨none, ⟨[], []⟩⟩⟩]⟩]⟩, none) :=
  ⟨rfl, rfl⟩

/-- C5 (amended): for every matched shape reporting at least one
capability, exactly one renderer is chosen, by the fixed priority table →
text → chart (a multi-capability shape goes only to the highest-priority
renderer and nothing crashes), and the chosen renderer mutates only its
own payload; a shape reporting no capability is dispatched to no renderer. -/
theorem dispatch_priority (s : Shape) (v : Value)
    (h : s.hasTable = true ∨ s.hasTextFrame = true ∨ s.hasChart = true) :
    (chooseRenderer s).isSome = true
      ∧ (s.hasTable = true → chooseRenderer s = some RendererKind.table)
      ∧ (s.hasTable = false → s.hasTextFrame = true →
          chooseRenderer s = some RendererKind.text)
      ∧ (s.hasTable = false → s.hasTextFrame = false → s.hasChart = true →
          chooseRenderer s = some RendererKind.chart)
      ∧ (chooseRenderer s = some RendererKind.table →
          (renderShape v s).1.textFrame = s.textFrame ∧ (renderShape v s).1.chart = s.chart)
      ∧ (chooseRenderer s = some RendererKind.text →
          (renderShape v s).1.table = s.table ∧ (renderShape v s).1.chart = s.chart)
      ∧ (chooseRenderer s = some RendererKind.chart →
          (renderShape v s).1.table = s.table ∧ (renderShape v s).1.textFrame = s.textFrame) := by
  refine ⟨?_, ?_, ?_, ?_, ?_, ?_, ?_⟩
  · cases ht : s.hasTable <;> cases htf : s.hasTextFrame <;> cases hch : s.hasChart <;>
      simp_all [chooseRenderer]
  · intro ht
    simp [chooseRenderer, ht]
  · intro ht htf
    simp [chooseRenderer, ht, htf]
  · intro ht htf hch
    simp [chooseRenderer, ht, htf, hch]
  · intro hc
    simp [renderShape, hc]
  · intro hc
    simp [renderShape, hc]
  · intro hc
    simp [renderShape, hc]

def multiShape : Shape := ⟨"multi", true, true, true, ⟨[]⟩, ⟨[]⟩, ⟨none, ⟨[], []⟩⟩⟩

/-- Witness for C5: a shape reporting all three capabilities goes to the
table renderer only. -/
theorem dispatch_priority_witness :
    (chooseRenderer multiShape).isSome = true
      ∧ chooseRenderer multiShape = some RendererKind.table
      ∧ (renderShape (Value.str "x") multiShape).1.textFrame = multiShape.textFrame := by
  have h := dispatch_priority multiShape (Value.str "x") (Or.inl rfl)
  exact ⟨h.1, h.2.1 rfl, (h.2.2.2.2.1 (h.2.1 rfl)).1⟩

theorem renderShapesList_no_match (key : String) (v : Value) :
    ∀ shapes : List Shape, (∀ s ∈ shapes, s.name ≠ key) →
      renderShapesList key v shapes = (shapes, none) := by
  intro shapes
  induction shapes with
  | nil => intro _; rfl
  | cons s rest ih =>
    intro h
    have hs : (s.name == key) = false :=
      beq_eq_false_iff_ne.mpr (h s (List.mem_cons_self s rest))
    have hrest := ih (fun s2 h2 => h s2 (List.mem_cons_of_mem s h2))
    unfold renderShapesList
    rw [hs]
    simp [hrest]

theorem renderSlidesList_no_match (key : String) (v : Value) :
    ∀ slides : List Slide, (∀ sl ∈ slides, ∀ s ∈ sl.shapes, s.name ≠ key) →
      renderSlidesList key v slides = (slides, none) := by
  intro slides
  induction slides with
  | nil => intro _; rfl
  | cons sl rest ih =>
    intro h
    have hsl := renderShapesList_no_match key v sl.shapes (h sl (List.mem_cons_self sl rest))
    have hrest := ih (fun sl2 h2 => h sl2 (List.mem_cons_of_mem sl h2))
    unfold renderSlidesList
    rw [hsl]
    simp [hrest]

/-- C6: a name matching no shape gives the empty list from
`get_shapes_by_name` (never an error), the corresponding `render_ppt`
entry is a silent no-op, and the rendered document is what the remaining
entries alone produce. -/
theorem absent_name_noop (prs : Prs) (key : String) (v : Value)
    (entries : List (String × Value))
    (h : ∀ s ∈ allShapes prs, s.name ≠ key) :
    get_shapes_by_name prs key = []
      ∧ renderEntry key v prs = (prs, none)
      ∧ render_ppt ((key, v) :: entries) prs = render_ppt entries prs := by
  have hslides : ∀ sl ∈ prs.slides, ∀ s ∈ sl.shapes, s.name ≠ key := by
    intro sl hsl s hs
    exact h s (List.mem_flatMap.mpr ⟨sl, hsl, hs⟩)
  have hentry : renderEntry key v prs = (prs, none) := by
    unfold renderEntry
    rw [renderSlidesList_no_match key v prs.slides hslides]
  refine ⟨?_, hentry, ?_⟩
  · unfold get_shapes_by_name
    rw [List.filter_eq_nil_iff]
    intro s hs
    simpa using h s hs
  · have hstep : render_ppt ((key, v) :: entries) prs
        = match (renderEntry key v prs).2 with
          | some err => ((renderEntry key v prs).1, some err)
          | none => render_ppt entries (renderEntry key v prs).1 := rfl
    rw [hstep, hentry]

/-- Witness for C6: a one-shape presentation and a key naming no shape. -/
theorem absent_name_noop_witness :
    get_shapes_by_name ⟨[⟨[⟨"a", true, false, false, ⟨[]⟩, ⟨[]⟩, ⟨none, ⟨[], []⟩⟩⟩]⟩]⟩ "b" = []
      ∧ renderEntry "b" (Value.str "x")
          ⟨[⟨[⟨"a", true, false, false, ⟨[]⟩, ⟨[]⟩, ⟨none, ⟨[], []⟩⟩⟩]⟩]⟩
        = (⟨[⟨[⟨"a", true, false, false, ⟨[]⟩, ⟨[]⟩, ⟨none, ⟨[], []⟩⟩⟩]⟩]⟩, none) := by
  have h := absent_name_noop ⟨[⟨[⟨"a", true, false, false, ⟨[]⟩, ⟨[]⟩, ⟨none, ⟨[], []⟩⟩⟩]⟩]⟩
    "b" (Value.str "x") [] (by intro s hs; fin_cases hs; decide)
  exact ⟨h.1, h.2.1⟩

/-! ## `_is_default_name` and `get_shapes`

`_is_default_name` checks `name.istitle()` and then compares the set
`set(name.split()) & _usual_default_words` against the literal `\x7b\x7d`.
That literal is an *empty dict*, not an empty set, and in Python `==`
between a set and a dict is always `False`, so the function returns
`False` for every name and `get_shapes(get_all=False)` filters nothing
out (its own docstring and the repository test expect `'Title 1'` to be
excluded).  The embedding reproduces the comparison faithfully. -/

/-- Python `str.istitle` (ASCII): at least one cased character, uppercase
only after an uncased character, lowercase only after a cased one. -/
def istitleGo : List Char → Bool → Bool → Bool
  | [], _, found => found
  | c :: rest, prevCased, found =>
    if c.isUpper then
      if prevCased then false else istitleGo rest true true
    else if c.isLower then
      if prevCased then istitleGo rest true true else false
    else istitleGo rest false found

def istitle (s : String) : Bool :=
  istitleGo s.toList false false

/-- Python `str.split()` with no argument: split on whitespace runs,
discarding empty pieces.  (The accumulator holds the current word in
reverse.) -/
def splitWSGo : List Char → List Char → List String
  | [], acc => if acc.isEmpty then [] else [String.mk acc.reverse]
  | c :: rest, acc =>
    if c.isWhitespace then
      if acc.isEmpty then splitWSGo rest []
      else String.mk acc.reverse :: splitWSGo rest []
    else splitWSGo rest (c :: acc)

def splitWS (s : String) : List String :=
  splitWSGo s.toList []

def usualDefaultWords : List String :=
  ["Title", "Placeholder", "Connector", "Elbow", "Up", "Left", "Right", "Down", "Subtitle"]

/-- `set(name.split()) & _usual_default_words` as a duplicate-free list. -/
def setIntersect (xs ys : List String) : List String :=
  (xs.filter (fun x => ys.contains x)).dedup

/-- In Python the literal `\x7b\x7d` denotes an empty *dict*, and `==`
between a set and a dict always evaluates to `False`, whatever the set
holds: this models the source's `(... & _usual_default_words) == \x7b\x7d`. -/
def pySetEqEmptyDict (_ : List String) : Bool := false

def isDefaultName (name : String) : Bool :=
  if istitle name then pySetEqEmptyDict (setIntersect (splitWS name) usualDefaultWords)
  else false

theorem isDefaultName_false (name : String) : isDefaultName name = false := by
  unfold isDefaultName pySetEqEmptyDict
  split <;> rfl

def getPlaceholders (tf : TextFrame) : List String :=
  (tf.paragraphs.map (fun p => findKeywords p.text)).flatten

/-- The empty placeholder skeletons `_create_empty_values` builds: an empty
string for marker-free text shapes, a keyword→empty-string dict for text
shapes with markers, a `None`-filled nested list sized like the table for
table shapes, and the `title/data/categories` skeleton for charts. -/
inductive Skeleton where
  | text : String → Skeleton
  | kwmap : List (String × String) → Skeleton
  | tableSkel : List (List (Option String)) → Skeleton
  | chartSkel : String → List String → List String → Skeleton
deriving DecidableEq

def createEmptyValues (s : Shape) : Skeleton :=
  if s.hasTextFrame then
    if (getPlaceholders s.textFrame).isEmpty then Skeleton.text ""
    else Skeleton.kwmap
      ((getPlaceholders s.textFrame).foldl (fun m k => pyDictInsert m k "") [])
  else if s.hasTable then
    Skeleton.tableSkel (s.table.rows.map (fun r => r.cells.map (fun _ => none)))
  else if s.hasChart then Skeleton.chartSkel "" [] []
  else Skeleton.text ""

def getShapes (prs : Prs) (getAll : Bool) : List (String × Skeleton) :=
  (if getAll then allShapes prs
   else (allShapes prs).filter (fun s => !(isDefaultName s.name))).foldl
    (fun m s => pyDictInsert m s.name (createEmptyValues s)) []

/-- The last shape with the given name in slide-then-shape traversal
order (the binding that survives the dict comprehension). -/
def lastMatch (shapes : List Shape) (name : String) : Option Shape :=
  shapes.foldl (fun acc s => if s.name == name then some s else acc) none

/-! ## Dict-comprehension facts for `get_shapes` (C8, C10) -/

def keysNodup {α : Type} (m : List (String × α)) : Prop :=
  (m.map Prod.fst).Nodup

theorem pyDictGet_map_overwrite {α : Type} (k : String) (v : α) :
    ∀ m : List (String × α), (pyDictGet m k).isSome = true →
      pyDictGet (m.map (fun p => if p.1 = k then (k, v) else p)) k = some v := by
  intro m
  induction m with
  | nil => intro h; cases h
  | cons p rest ih =>
    rcases p with ⟨k2, w⟩
    intro h
    simp only [List.map_cons]
    by_cases hk : k2 = k
    · rw [if_pos (show (k2, w).1 = k from hk)]
      simp [pyDictGet]
    · rw [if_neg (show ¬(k2, w).1 = k from hk)]
      simp only [pyDictGet] at h ⊢
      rw [if_neg hk] at h ⊢
      exact ih h

theorem pyDictGet_append_new {α : Type} (k : String) (v : α) :
    ∀ m : List (String × α), pyDictGet m k = none →
      pyDictGet (m ++ [(k, v)]) k = some v := by
  intro m
  induction m with
  | nil => intro _; simp [pyDictGet]
  | cons p rest ih =>
    rcases p with ⟨k2, w⟩
    intro h
    simp only [pyDictGet] at h
    rw [List.cons_append]
    simp only [pyDictGet]
    by_cases hk : k2 = k
    · rw [if_pos hk] at h; cases h
    · rw [if_neg hk] at h ⊢
      exact ih h

theorem any_key_eq_isSome {α : Type} (k : String) :
    ∀ m : List (String × α), m.any (fun p => p.1 == k) = (pyDictGet m k).isSome := by
  intro m
  induction m with
  | nil => rfl
  | cons p rest ih =>
    rcases p with ⟨k2, w⟩
    simp only [List.any_cons, pyDictGet]
    by_cases hk : k2 = k
    · rw [if_pos hk]
      simp [hk]
    · rw [if_neg hk, beq_eq_false_iff_ne.mpr (show (k2, w).1 ≠ k from hk)]
      simp [ih]

theorem pyDictGet_insert_self {α : Type} (m : List (String × α)) (k : String) (v : α) :
    pyDictGet (pyDictInsert m k v) k = some v := by
  unfold pyDictInsert
  by_cases hany : m.any (fun p => p.1 == k) = true
  · rw [if_pos hany]
    rw [any_key_eq_isSome] at hany
    exact pyDictGet_map_overwrite k v m hany
  · rw [if_neg hany]
    rw [any_key_eq_isSome] at hany
    exact pyDictGet_append_new k v m (by
      cases hg : pyDictGet m k with
      | none => rfl
      | some w => rw [hg] at hany; exact absurd rfl hany)

theorem pyDictGet_map_other {α : Type} (k k2 : String) (v : α) (h : ¬k = k2) :
    ∀ m : List (String × α),
      pyDictGet (m.map (fun p => if p.1 = k then (k, v) else p)) k2 = pyDictGet m k2 := by
  intro m
  induction m with
  | nil => rfl
  | cons p rest ih =>
    rcases p with ⟨k3, w⟩
    simp only [List.map_cons]
    by_cases hk : k3 = k
    · rw [if_pos (show (k3, w).1 = k from hk)]
      simp only [pyDictGet]
      rw [if_neg h, if_neg (fun hc => h (hk.symm.trans hc))]
      exact ih
    · rw [if_neg (show ¬(k3, w).1 = k from hk)]
      simp only [pyDictGet]
      by_cases hk2 : k3 = k2
      · rw [if_pos hk2, if_pos hk2]
      · rw [if_neg hk2, if_neg hk2]
        exact ih

theorem pyDictGet_append_other {α : Type} (k k2 : String) (v : α) (h : ¬k = k2) :
    ∀ m : List (String × α), pyDictGet (m ++ [(k, v)]) k2 = pyDictGet m k2 := by
  intro m
  induction m with
  | nil =>
    simp only [List.nil_append, pyDictGet]
    rw [if_neg h]
  | cons p rest ih =>
    rcases p with ⟨k3, w⟩
    rw [List.cons_append]
    simp only [pyDictGet]
    by_cases hk2 : k3 = k2
    · rw [if_pos hk2, if_pos hk2]
    · rw [if_neg hk2, if_neg hk2]
      exact ih

theorem pyDictGet_insert_other {α : Type} (m : List (String × α)) (k k2 : String) (v : α)
    (h : k ≠ k2) : pyDictGet (pyDictInsert m k v) k2 = pyDictGet m k2 := by
  unfold pyDictInsert
  split
  · exact pyDictGet_map_other k k2 v h m
  · exact pyDictGet_append_other k k2 v h m

theorem keysNodup_insert {α : Type} (m : List (String × α)) (k : String) (v : α)
    (h : keysNodup m) : keysNodup (pyDictInsert m k v) := by
  unfold pyDictInsert
  split
  · unfold keysNodup at h ⊢
    have hmap : (m.map (fun p => if p.1 = k then (k, v) else p)).map Prod.fst
        = m.map Prod.fst := by
      rw [List.map_map]
      refine List.map_congr_left ?_
      intro p _
      by_cases hp : p.1 = k
      · simp [hp, Function.comp]
      · simp [hp, Function.comp]
    rw [hmap]
    exact h
  · rename_i hany
    unfold keysNodup at h ⊢
    rw [List.map_append, List.nodup_append]
    refine ⟨h, by simp, ?_⟩
    intro a ha hamem
    have hak : a = k := by simpa using hamem
    subst hak
    rcases List.mem_map.mp ha with ⟨p, hp, hpa⟩
    apply hany
    exact List.any_eq_true.mpr ⟨p, hp, by simp [hpa]⟩

theorem keysNodup_fold (step : List (String × Skeleton) → Shape → List (String × Skeleton))
    (hstep : step = fun m s => pyDictInsert m s.name (createEmptyValues s)) :
    ∀ (shapes : List Shape) (m : List (String × Skeleton)),
      keysNodup m → keysNodup (shapes.foldl step m) := by
  intro shapes
  induction shapes with
  | nil => intro m h; exact h
  | cons s rest ih =>
    intro m h
    rw [List.foldl_cons]
    exact ih _ (by rw [hstep]; exact keysNodup_insert m s.name (createEmptyValues s) h)

theorem count_one_of_nodup {α : Type} (k : String) :
    ∀ m : List (String × α), keysNodup m → (pyDictGet m k).isSome = true →
      (m.filter (fun e => e.1 == k)).length = 1 := by
  intro m
  induction m with
  | nil => intro _ h; cases h
  | cons p rest ih =>
    rcases p with ⟨k2, v⟩
    intro hn hs
    have hn2 := (List.nodup_cons.mp hn)
    by_cases hk : k2 = k
    · subst hk
      have hrest : rest.filter (fun e => e.1 == k2) = [] := by
        rw [List.filter_eq_nil_iff]
        intro e he
        simp only [beq_iff_eq]
        intro hcontra
        exact hn2.1 (List.mem_map.mpr ⟨e, he, hcontra⟩)
      simp [List.filter_cons, hrest]
    · rw [pyDictGet, if_neg hk] at hs
      have := ih hn2.2 hs
      simp only [List.filter_cons]
      rw [if_neg (by simp [hk])]
      exact this

theorem lastMatch_acc (name : String) :
    ∀ (shapes : List Shape) (acc : Option Shape),
      shapes.foldl (fun acc s => if s.name == name then some s else acc) acc
        = match lastMatch shapes name with
          | some s => some s
          | none => acc := by
  intro shapes
  induction shapes with
  | nil => intro acc; rfl
  | cons s rest ih =>
    intro acc
    show rest.foldl _ (if s.name == name then some s else acc)
      = match lastMatch (s :: rest) name with
        | some s2 => some s2
        | none => acc
    have hl : lastMatch (s :: rest) name
        = match lastMatch rest name with
          | some s2 => some s2
          | none => if s.name == name then some s else none := by
      show rest.foldl _ (if s.name == name then some s else none) = _
      exact ih (if s.name == name then some s else none)
    rw [ih (if s.name == name then some s else acc), hl]
    cases hrest : lastMatch rest name with
    | some s2 => rfl
    | none =>
      by_cases hname : s.name == name
      · rw [if_pos hname, if_pos hname]
      · rw [if_neg hname, if_neg hname]

theorem getShapes_fold_get (name : String) :
    ∀ (shapes : List Shape) (m : List (String × Skeleton)),
      pyDictGet (shapes.foldl (fun m s => pyDictInsert m s.name (createEmptyValues s)) m) name
        = match lastMatch shapes name with
          | some s => some (createEmptyValues s)
          | none => pyDictGet m name := by
  intro shapes
  induction shapes with
  | nil => intro m; rfl
  | cons s rest ih =>
    intro m
    rw [List.foldl_cons, ih]
    have hl : lastMatch (s :: rest) name
        = match lastMatch rest name with
          | some s2 => some s2
          | none => if s.name == name then some s else none :=
      lastMatch_acc name rest (if s.name == name then some s else none)
    rw [hl]
    cases hrest : lastMatch rest name with
    | some s2 => rfl
    | none =>
      by_cases hname : s.name == name
      · rw [if_pos hname]
        have : s.name = name := by simpa using hname
        subst this
        exact pyDictGet_insert_self m s.name (createEmptyValues s)
      · rw [if_neg hname]
        exact pyDictGet_insert_other m s.name name (createEmptyValues s)
          (by simpa using hname)

theorem lastMatch_none_filter (name : String) :
    ∀ shapes : List Shape, lastMatch shapes name = none →
      shapes.filter (fun s => s.name == name) = [] := by
  intro shapes
  induction shapes with
  | nil => intro _; rfl
  | cons s rest ih =>
    intro h
    have hl : lastMatch (s :: rest) name
        = match lastMatch rest name with
          | some s2 => some s2
          | none => if s.name == name then some s else none :=
      lastMatch_acc name rest (if s.name == name then some s else none)
    rw [hl] at h
    cases hrest : lastMatch rest name with
    | some s2 => rw [hrest] at h; cases h
    | none =>
      rw [hrest] at h
      by_cases hname : s.name == name
      · rw [if_pos hname] at h; cases h
      · rw [List.filter_cons, if_neg (by simpa using hname)]
        exact ih hrest

theorem filter_not_default (l : List Shape) :
    l.filter (fun s => !(isDefaultName s.name)) = l := by
  induction l with
  | nil => rfl
  | cons s rest ih =>
    rw [List.filter_cons]
    simp [isDefaultName_false, ih]

theorem getShapes_eq_fold (prs : Prs) (getAll : Bool) :
    getShapes prs getAll
      = (allShapes prs).foldl (fun m s => pyDictInsert m s.name (createEmptyValues s)) [] := by
  unfold getShapes
  cases getAll with
  | true => rfl
  | false =>
    rw [filter_not_default]
    simp

/-- C10: when two or more shapes share a name, `get_shapes` returns exactly
one entry under that name, holding the placeholder skeleton of the last
such shape in slide-then-shape traversal order; the duplicates are
silently dropped (name lookup and rendering still see all of them). -/
theorem duplicate_names_last_wins (prs : Prs) (name : String) (getAll : Bool)
    (h : 2 ≤ ((allShapes prs).filter (fun s => s.name == name)).length) :
    ((getShapes prs getAll).filter (fun e => e.1 == name)).length = 1
      ∧ ∃ s, lastMatch (allShapes prs) name = some s
          ∧ pyDictGet (getShapes prs getAll) name = some (createEmptyValues s) := by
  have hlm : ∃ s, lastMatch (allShapes prs) name = some s := by
    cases hl : lastMatch (allShapes prs) name with
    | some s => exact ⟨s, rfl⟩
    | none =>
      rw [lastMatch_none_filter name (allShapes prs) hl] at h
      simp at h
  rcases hlm with ⟨s, hs⟩
  have hget : pyDictGet (getShapes prs getAll) name = some (createEmptyValues s) := by
    rw [getShapes_eq_fold, getShapes_fold_get, hs]
  have hnodup : keysNodup (getShapes prs getAll) := by
    rw [getShapes_eq_fold]
    exact keysNodup_fold _ rfl (allShapes prs) [] (by simp [keysNodup])
  exact ⟨count_one_of_nodup name _ hnodup (by rw [hget]; rfl), s, hs, hget⟩

def dupPrs : Prs :=
  ⟨[⟨[⟨"dup", false, true, false, ⟨[]⟩, ⟨[]⟩, ⟨none, ⟨[], []⟩⟩⟩,
      ⟨"dup", true, false, false, ⟨[⟨[⟨⟨[⟨[]⟩]⟩⟩]⟩]⟩, ⟨[]⟩, ⟨none, ⟨[], []⟩⟩⟩]⟩]⟩

/-- Witness for C10: two shapes named `"dup"` (a text shape then a table
shape); the surviving entry is the table skeleton of the second. -/
theorem duplicate_names_last_wins_witness :
    ((getShapes dupPrs true).filter (fun e => e.1 == "dup")).length = 1 :=
  (duplicate_names_last_wins dupPrs "dup" true (by decide)).1

def titlePrs : Prs :=
  ⟨[⟨[⟨"Title 1", false, true, false, ⟨[]⟩, ⟨[]⟩, ⟨none, ⟨[], []⟩⟩⟩,
      ⟨"content", false, true, false, ⟨[]⟩, ⟨[]⟩, ⟨none, ⟨[], []⟩⟩⟩]⟩]⟩

/-- C8 (code evaluated at the failing input): `_is_default_name` returns
`False` even for `"Title 1"` — the set intersection is compared with an
empty dict, which can never be equal — so `get_shapes` with
`get_all=False` keeps the auto-generated `"Title 1"` entry that its own
docstring and the repository test expect to be filtered out. -/
theorem default_name_filter_broken :
    isDefaultName "Title 1" = false
      ∧ pyDictGet (getShapes titlePrs false) "Title 1" = some (Skeleton.text "")
      ∧ pyDictGet (getShapes titlePrs false) "content" = some (Skeleton.text "") := by
  refine ⟨isDefaultName_false "Title 1", by decide, by decide⟩

end Pypyt
